import Mathlib

/-!
Shallow embedding of the Linea_SpinWheel repository's per-wallet daily
state machine and persisted store (src/src/modules/database.ts), the
campaign runner (src/unnamed/part_003), and the key-encryption utility
(src/unnamed/part_002).

Modelling conventions:
* ISO-8601 UTC timestamps are modelled as a `Timestamp` structure carrying
  the UTC calendar day (a day index standing for the `YYYY-MM-DD` string
  produced by `toISOString().split('T')[0]`), the UTC hour
  (`getUTCHours()`), minute and second.  Two ISO date strings are equal
  iff their day indices are equal, and the lexicographic order on
  (day, hour, minute, sec) is chronological order.
* Formatted decimal balance strings ("x ETH" / "x WETH") and the transfer
  amount string are modelled as rationals: the code only ever parses them
  with `parseFloat` and compares against 0 or multiplies.
* The persisted snapshot `{ wallets, lastUpdate }` is `DbData`; each
  database method is a pure function from the loaded snapshot (plus the
  current time and any external-world inputs) to the saved snapshot,
  mirroring the load-entire / mutate / save-entire structure of the code.
* JS spread `{...old, ...patch}` semantics: a key of the patch object can
  be absent (the old field survives) or present (its value, possibly the
  explicit value `undefined`, replaces the old field).  A patch field is
  therefore `Option (Option α)`: `none` = key absent, `some none` = key
  present holding `undefined`, `some (some v)` = key present holding `v`.
-/

/-- A UTC instant, as the code observes it: calendar day index
(`toISOString().split('T')[0]`), `getUTCHours()`, minutes, seconds. -/
structure Timestamp where
  day : Nat
  hour : Nat
  minute : Nat
  sec : Nat
deriving DecidableEq, Repr

/-- Chronological order on instants (lexicographic on day, hour, minute,
second — chronological order for UTC timestamps). -/
def Timestamp.le (a b : Timestamp) : Prop :=
  a.day < b.day ∨ (a.day = b.day ∧
    (a.hour < b.hour ∨ (a.hour = b.hour ∧
      (a.minute < b.minute ∨ (a.minute = b.minute ∧ a.sec ≤ b.sec)))))

instance : DecidablePred (fun p : Timestamp × Timestamp => Timestamp.le p.1 p.2) :=
  fun _ => by unfold Timestamp.le; infer_instance

instance (a b : Timestamp) : Decidable (Timestamp.le a b) := by
  unfold Timestamp.le; infer_instance

/-- Mirror of `interface WalletData` in src/src/modules/database.ts.  Optional
fields are `Option`; `connectedAt` is required by the interface.
`lastTransferDate` is a `YYYY-MM-DD` date, i.e. a day index. -/
structure WalletData where
  address : String
  balance : Option ℚ := none
  wethBalance : Option ℚ := none
  transactionCount : Option Nat := none
  lastActivity : Option Timestamp := none
  connectedAt : Timestamp
  spinsAvailable : Option Int := none
  prizesWon : Option Nat := none
  gamesPlayed : Option Nat := none
  dayStreak : Option Nat := none
  nextSpinTime : Option String := none
  todayTransfer : Option Bool := none
  lastTransferDate : Option Nat := none
  transferAmount : Option ℚ := none
  lastSpinDate : Option Timestamp := none
deriving DecidableEq, Repr

/-- The persisted snapshot `{ wallets: WalletData[]; lastUpdate: string }`. -/
structure DbData where
  wallets : List WalletData
  lastUpdate : Timestamp
deriving DecidableEq, Repr

/-- Lowercasing `toLowerCase()`, character by character (addresses are ASCII hex
strings). -/
def lowerAddr (s : String) : List Char :=
  s.data.map Char.toLower

/-- The case-insensitive address match
`w.address.toLowerCase() === address.toLowerCase()` used by every lookup. -/
def matchesAddr (addr : String) (w : WalletData) : Bool :=
  lowerAddr w.address == lowerAddr addr

/-- Lookup `getWalletData` / `getWalletDataSync`: find the record whose address
matches case-insensitively (`data.wallets.find(...)`). -/
def getWalletData (d : DbData) (addr : String) : Option WalletData :=
  d.wallets.find? (matchesAddr addr)

/-- Combined `findIndex` + in-place mutation of the first matching element:
`some l'` when a match was found and replaced, `none` when
`findIndex` returned `-1`. -/
def updateFirst (p : α → Bool) (f : α → α) : List α → Option (List α)
  | [] => none
  | x :: xs => if p x then some (f x :: xs) else (updateFirst p f xs).map (x :: ·)

/-- Policy `isNewDayForWallet` (database.ts:210-243), expressed over the record
it looks up: absent record → true; else true iff `lastTransferDate` is
present and differs from today, or `lastActivity` is present and differs
from today, or `lastActivity` is absent and `connectedAt` (always present)
differs from today. -/
def isNewDayRecord (w? : Option WalletData) (now : Timestamp) : Bool :=
  match w? with
  | none => true
  | some w =>
    let today := now.day
    (match w.lastTransferDate with
     | some dt => dt != today
     | none => false) ||
    (match w.lastActivity with
     | some la => la.day != today
     | none => false) ||
    (w.lastActivity.isNone && (w.connectedAt.day != today))

/-- Wrapper `isNewDayForWallet(address)`: looks the record up in the snapshot. -/
def isNewDayForWallet (d : DbData) (addr : String) (now : Timestamp) : Bool :=
  isNewDayRecord (getWalletData d addr) now

/-- Policy `shouldRefreshSpinsForNewDay` (database.ts:249-283), expressed over
the record it looks up: absent record or absent `lastSpinDate` → true;
last spin on a different calendar day → true; same day → true iff now's
UTC hour ≥ 3 and the last spin's UTC hour < 3. -/
def shouldRefreshSpinsRecord (w? : Option WalletData) (now : Timestamp) : Bool :=
  match w? with
  | none => true
  | some w =>
    match w.lastSpinDate with
    | none => true
    | some ls =>
      if ls.day != now.day then true
      else decide (3 ≤ now.hour ∧ ls.hour < 3)

/-- Wrapper `shouldRefreshSpinsForNewDay(address)`: looks the record up. -/
def shouldRefreshSpinsForNewDay (d : DbData) (addr : String) (now : Timestamp) : Bool :=
  shouldRefreshSpinsRecord (getWalletData d addr) now

/-- Check `checkSpinsAvailable` (database.ts:325-333):
`!!(walletData.spinsAvailable && walletData.spinsAvailable > 0)` —
false for an absent record, an absent field, zero (falsy) and negative
values; true exactly for a positive count. -/
def checkSpinsAvailableRecord (w? : Option WalletData) : Bool :=
  match w? with
  | none => false
  | some w =>
    match w.spinsAvailable with
    | some n => decide (0 < n)
    | none => false

/-- Wrapper `checkSpinsAvailable(address)`: looks the record up. -/
def checkSpinsAvailable (d : DbData) (addr : String) : Bool :=
  checkSpinsAvailableRecord (getWalletData d addr)

/-- Body of `decrementSpins` (database.ts:338-351): locate by address; read
`spinsAvailable || 0`; only when that value is `> 0`, write back the
decremented count, stamp `lastActivity` and `lastUpdate`, and save.
In every other case nothing is written. -/
def decrementSpinsList (addr : String) (now : Timestamp) :
    List WalletData → Option (List WalletData)
  | [] => none
  | w :: ws =>
    if matchesAddr addr w then
      let currentSpins : Int := w.spinsAvailable.getD 0
      if 0 < currentSpins then
        some ({ w with spinsAvailable := some (currentSpins - 1),
                       lastActivity := some now } :: ws)
      else none
    else (decrementSpinsList addr now ws).map (w :: ·)

/-- Operation `decrementSpins(address)`: `none` from the list helper means the
guard failed and `saveData` was never called, so the snapshot is
returned unchanged. -/
def decrementSpins (d : DbData) (addr : String) (now : Timestamp) : DbData :=
  match decrementSpinsList addr now d.wallets with
  | some ws => { wallets := ws, lastUpdate := now }
  | none => d

/-- A partial update object, with JS spread semantics per field:
`none` = key absent (old value survives the spread), `some v` = key
present with value `v : Option α` (`some none` = key present holding the
explicit value `undefined`, which the spread copies over the old value).
`address` and `connectedAt` are not part of the patch: `saveWalletData`
takes the address separately and overrides `connectedAt` with `now`
after the spread, and `forceUpdateWalletData`'s callers never pass
either in `newData`. -/
structure WalletPatch where
  balance : Option (Option ℚ) := none
  wethBalance : Option (Option ℚ) := none
  transactionCount : Option (Option Nat) := none
  lastActivity : Option (Option Timestamp) := none
  spinsAvailable : Option (Option Int) := none
  prizesWon : Option (Option Nat) := none
  gamesPlayed : Option (Option Nat) := none
  dayStreak : Option (Option Nat) := none
  nextSpinTime : Option (Option String) := none
  todayTransfer : Option (Option Bool) := none
  lastTransferDate : Option (Option Nat) := none
  transferAmount : Option (Option ℚ) := none
  lastSpinDate : Option (Option Timestamp) := none
deriving DecidableEq, Repr

/-- One field of `{...old, ...patch}`: the patch key, when present,
replaces the old value (even when it holds `undefined`); an absent key
leaves the old value. -/
def spreadField (old : Option α) (p : Option (Option α)) : Option α :=
  p.getD old

/-- The update expression of `saveWalletData` (database.ts:96-100):
`{...existing, ...walletData, connectedAt: now}`. -/
def mergeSave (w : WalletData) (addr : String) (p : WalletPatch)
    (now : Timestamp) : WalletData :=
  { address := addr
    balance := spreadField w.balance p.balance
    wethBalance := spreadField w.wethBalance p.wethBalance
    transactionCount := spreadField w.transactionCount p.transactionCount
    lastActivity := spreadField w.lastActivity p.lastActivity
    connectedAt := now
    spinsAvailable := spreadField w.spinsAvailable p.spinsAvailable
    prizesWon := spreadField w.prizesWon p.prizesWon
    gamesPlayed := spreadField w.gamesPlayed p.gamesPlayed
    dayStreak := spreadField w.dayStreak p.dayStreak
    nextSpinTime := spreadField w.nextSpinTime p.nextSpinTime
    todayTransfer := spreadField w.todayTransfer p.todayTransfer
    lastTransferDate := spreadField w.lastTransferDate p.lastTransferDate
    transferAmount := spreadField w.transferAmount p.transferAmount
    lastSpinDate := spreadField w.lastSpinDate p.lastSpinDate }

/-- The record pushed for a new wallet (database.ts:131-134):
`{...walletData, connectedAt: now}` — absent and explicitly-undefined
patch keys both yield an absent field. -/
def freshFromPatch (addr : String) (p : WalletPatch) (now : Timestamp) : WalletData :=
  { address := addr
    balance := p.balance.join
    wethBalance := p.wethBalance.join
    transactionCount := p.transactionCount.join
    lastActivity := p.lastActivity.join
    connectedAt := now
    spinsAvailable := p.spinsAvailable.join
    prizesWon := p.prizesWon.join
    gamesPlayed := p.gamesPlayed.join
    dayStreak := p.dayStreak.join
    nextSpinTime := p.nextSpinTime.join
    todayTransfer := p.todayTransfer.join
    lastTransferDate := p.lastTransferDate.join
    transferAmount := p.transferAmount.join
    lastSpinDate := p.lastSpinDate.join }

/-- Upsert `saveWalletData` (database.ts:85-139): locate the record by
case-insensitive address; when found, spread the update over it and
re-stamp `connectedAt`; otherwise push a new record; stamp `lastUpdate`
and save. -/
def saveWalletData (d : DbData) (addr : String) (p : WalletPatch)
    (now : Timestamp) : DbData :=
  match updateFirst (matchesAddr addr) (fun w => mergeSave w addr p now) d.wallets with
  | some ws => { wallets := ws, lastUpdate := now }
  | none => { wallets := d.wallets ++ [freshFromPatch addr p now], lastUpdate := now }

/-- The update expression of `forceUpdateWalletData` (database.ts:380-384):
`{...existing, ...newData, lastActivity: now}` — address and
`connectedAt` of the stored record survive. -/
def mergeForce (w : WalletData) (p : WalletPatch) (now : Timestamp) : WalletData :=
  { address := w.address
    balance := spreadField w.balance p.balance
    wethBalance := spreadField w.wethBalance p.wethBalance
    transactionCount := spreadField w.transactionCount p.transactionCount
    lastActivity := some now
    connectedAt := w.connectedAt
    spinsAvailable := spreadField w.spinsAvailable p.spinsAvailable
    prizesWon := spreadField w.prizesWon p.prizesWon
    gamesPlayed := spreadField w.gamesPlayed p.gamesPlayed
    dayStreak := spreadField w.dayStreak p.dayStreak
    nextSpinTime := spreadField w.nextSpinTime p.nextSpinTime
    todayTransfer := spreadField w.todayTransfer p.todayTransfer
    lastTransferDate := spreadField w.lastTransferDate p.lastTransferDate
    transferAmount := spreadField w.transferAmount p.transferAmount
    lastSpinDate := spreadField w.lastSpinDate p.lastSpinDate }

/-- Update `forceUpdateWalletData` (database.ts:372-403): only an existing
record is updated (no record is created); `lastActivity` and
`lastUpdate` are stamped before saving. -/
def forceUpdateWalletData (d : DbData) (addr : String) (p : WalletPatch)
    (now : Timestamp) : DbData :=
  match updateFirst (matchesAddr addr) (fun w => mergeForce w p now) d.wallets with
  | some ws => { wallets := ws, lastUpdate := now }
  | none => d

/-- Bookkeeping `updateDailyTransferStatus` (database.ts:766-794): record (or create
with) `todayTransfer = true`, `lastTransferDate = date`,
`transferAmount = amount`, stamp `lastActivity` and `lastUpdate`, save. -/
def updateDailyTransferStatus (d : DbData) (addr : String) (date : Nat)
    (amount : ℚ) (now : Timestamp) : DbData :=
  match updateFirst (matchesAddr addr)
      (fun w => { w with todayTransfer := some true,
                         lastTransferDate := some date,
                         transferAmount := some amount,
                         lastActivity := some now }) d.wallets with
  | some ws => { wallets := ws, lastUpdate := now }
  | none =>
    { wallets := d.wallets ++
        [{ address := addr
           todayTransfer := some true
           lastTransferDate := some date
           transferAmount := some amount
           lastActivity := some now
           connectedAt := now }],
      lastUpdate := now }

/-- External-world inputs consumed by one `checkAndPerformDailyTransfer`
call: the WETH balance fetched over RPC (`none` = fetch failed), the
random percentage drawn for the transfer amount, and whether the ledger
transfer is confirmed on-chain (`performWETHTransfer` reports success
only after `waitForTransactionReceipt` returns status `success`). -/
structure TransferEnv where
  wethBalance : Option ℚ
  transferPercent : ℚ
  transferSucceeds : Bool
deriving DecidableEq, Repr

/-- Result of one `checkAndPerformDailyTransfer` call: the returned
boolean, the snapshot finally on disk, and whether a ledger transfer was
invoked at all during the call. -/
structure DailyTransferRun where
  result : Bool
  db : DbData
  attempted : Bool
deriving DecidableEq, Repr

/-- Operation `checkAndPerformDailyTransfer` (database.ts:799-858): if the stored
record's `lastTransferDate` already equals today, return true without
touching the ledger; else fetch the balance (failure or a non-positive
balance returns false without a transfer); else invoke the transfer,
and only when it reports confirmed success write the bookkeeping via
`updateDailyTransferStatus` and return true. -/
def checkAndPerformDailyTransfer (d : DbData) (addr : String) (today : Nat)
    (now : Timestamp) (env : TransferEnv) : DailyTransferRun :=
  if (getWalletData d addr).bind (·.lastTransferDate) == some today then
    { result := true, db := d, attempted := false }
  else
    match env.wethBalance with
    | none => { result := false, db := d, attempted := false }
    | some wethAmount =>
      if wethAmount ≤ 0 then { result := false, db := d, attempted := false }
      else
        let transferAmount := wethAmount * env.transferPercent
        if env.transferSucceeds then
          { result := true
            db := updateDailyTransferStatus d addr today transferAmount now
            attempted := true }
        else { result := false, db := d, attempted := true }

/-- Predicate `hasFullData` (part_003:228-231): `spinsAvailable`, `prizesWon` and
`gamesPlayed` are all present (`!== undefined`). -/
def hasFullData (w : WalletData) : Bool :=
  w.spinsAvailable.isSome && w.prizesWon.isSome && w.gamesPlayed.isSome

/-- The single action `processWallet` decides for this pass (spec §4.3):
it either skips the wallet, opens a live page read before deciding
further, or consumes the cached spins. -/
inductive PlannedAction
  | skip
  | refreshThenDecide
  | consumeSpins
deriving DecidableEq, Repr

/-- The decision structure of `processWallet` (part_003:216-357) as a
pure function of the record fetched after the two daily checks (the only
store mutation between the fetch and the branch —
`resetDailyTransferFlagIfNewDay` — touches only `todayTransfer`, which
no branch condition reads):
1. fully completed today → skip;
2. existing, not a new day, full data, and (transfer done today or
   refresh due) → live refresh before deciding;
3. existing, not a new day, full data, refresh not due → cached
   `spinsAvailable` decides between consuming spins and skipping;
4. otherwise → live refresh before deciding. -/
def processWalletAction (w? : Option WalletData) (now : Timestamp) : PlannedAction :=
  let existing := w?.isSome
  let isNewDay := isNewDayRecord w? now
  let hasFull := match w? with
    | some w => hasFullData w
    | none => false
  let dailyTransferDoneToday : Bool := match w? with
    | some w => w.lastTransferDate == some now.day
    | none => false
  let shouldRefreshSpins := shouldRefreshSpinsRecord w? now
  let walletFullyCompletedToday :=
    existing && dailyTransferDoneToday &&
      ((w?.bind (·.spinsAvailable)) == some 0) && !shouldRefreshSpins
  if walletFullyCompletedToday then .skip
  else if existing && !isNewDay && hasFull &&
      (dailyTransferDoneToday || shouldRefreshSpins) then .refreshThenDecide
  else if existing && !isNewDay && hasFull && !shouldRefreshSpins then
    if checkSpinsAvailableRecord w? then .consumeSpins else .skip
  else .refreshThenDecide

/-- The state flags `processWallet` returns for the pass
(part_003:168-173). -/
structure PassOutcome where
  hasWETHBalance : Bool
  dailyTransferCompleted : Bool
  hasAvailableSpins : Bool
  spinsPerformed : Bool
deriving DecidableEq, Repr

/-- External-world inputs of the live branches of `processWallet`:
whether `bot.connectToLineaRewards()` succeeds, and whether the store
reports spins available after the live refresh re-populates it. -/
structure LiveEnv where
  connectOk : Bool
  spinsAfterRefresh : Bool
deriving DecidableEq, Repr

/-- Outcome of `processWallet` after its two daily checks (part_003:199-357),
returning the pass outcome together with whether a browser session
(`new LineaSpinWheelBot` + `initialize`) was created for the wallet.
`hasWETH` is the balance flag computed at part_003:202 and `dailyResult`
the boolean returned by `checkAndPerformDailyTransfer`. -/
def processWalletPass (w? : Option WalletData) (now : Timestamp)
    (hasWETH dailyResult : Bool) (env : LiveEnv) : PassOutcome × Bool :=
  let hasAvailableSpins : Bool := match w? with
    | some w => if hasFullData w then checkSpinsAvailableRecord w? else false
    | none => false
  let existing := w?.isSome
  let isNewDay := isNewDayRecord w? now
  let hasFull := match w? with
    | some w => hasFullData w
    | none => false
  let dailyTransferDoneToday : Bool := match w? with
    | some w => w.lastTransferDate == some now.day
    | none => false
  let shouldRefreshSpins := shouldRefreshSpinsRecord w? now
  let walletFullyCompletedToday :=
    existing && dailyTransferDoneToday &&
      ((w?.bind (·.spinsAvailable)) == some 0) && !shouldRefreshSpins
  if walletFullyCompletedToday then
    ({ hasWETHBalance := hasWETH, dailyTransferCompleted := true,
       hasAvailableSpins := false, spinsPerformed := false }, false)
  else if existing && !isNewDay && hasFull &&
      (dailyTransferDoneToday || shouldRefreshSpins) then
    if !env.connectOk then
      ({ hasWETHBalance := hasWETH, dailyTransferCompleted := dailyResult,
         hasAvailableSpins := hasAvailableSpins, spinsPerformed := false }, true)
    else
      ({ hasWETHBalance := hasWETH, dailyTransferCompleted := dailyResult,
         hasAvailableSpins := hasAvailableSpins,
         spinsPerformed := env.spinsAfterRefresh }, true)
  else if existing && !isNewDay && hasFull && !shouldRefreshSpins then
    if checkSpinsAvailableRecord w? then
      if !env.connectOk then
        ({ hasWETHBalance := hasWETH, dailyTransferCompleted := dailyResult,
           hasAvailableSpins := hasAvailableSpins, spinsPerformed := false }, true)
      else
        ({ hasWETHBalance := hasWETH, dailyTransferCompleted := dailyResult,
           hasAvailableSpins := hasAvailableSpins, spinsPerformed := true }, true)
    else
      ({ hasWETHBalance := hasWETH, dailyTransferCompleted := dailyResult,
         hasAvailableSpins := hasAvailableSpins, spinsPerformed := false }, false)
  else
    if !env.connectOk then
      ({ hasWETHBalance := hasWETH, dailyTransferCompleted := dailyResult,
         hasAvailableSpins := hasAvailableSpins, spinsPerformed := false }, true)
    else
      ({ hasWETHBalance := hasWETH, dailyTransferCompleted := dailyResult,
         hasAvailableSpins := hasAvailableSpins,
         spinsPerformed := env.spinsAfterRefresh }, true)

/-- Behaviour of the external world across the spin loop's iterations,
indexed by the current spin count: whether the store still reports spins
available before the next spin, whether `bot.spinWheel()` succeeds, and
whether `bot.reloadAndReconnect()` succeeds afterwards. -/
structure SpinEnv where
  spinsAvailable : Nat → Bool
  spinOk : Nat → Bool
  reloadOk : Nat → Bool

/-- The body of `performAllAvailableSpins` (part_003:114-163), with the
remaining iteration budget `fuel = maxSpins - spinCount` made explicit:
stop when the budget is exhausted or the store reports no spins; else
perform one spin; a failed spin or a failed reload ends the loop for
this wallet. Returns the final spin count. -/
def spinLoop (env : SpinEnv) (spinCount : Nat) : Nat → Nat
  | 0 => spinCount
  | fuel + 1 =>
    if !env.spinsAvailable spinCount then spinCount
    else
      let c := spinCount + 1
      if env.spinOk spinCount then
        if !env.reloadOk spinCount then c
        else spinLoop env c fuel
      else c

/-- Loop `performAllAvailableSpins`: the loop starting from zero with the
hard cap `maxSpins = 10`. Returns how many spin actions were invoked. -/
def performAllAvailableSpins (env : SpinEnv) : Nat :=
  spinLoop env 0 10

/-- The on-disk artifact `KeyEncryption.encryptKeys` produces
(src/unnamed/part_002): the random salt (`keys.salt`), the random IV
prepended to the ciphertext, and the AES-256-CBC ciphertext of the
secrets joined with a newline under the PBKDF2-derived key.  The cipher
itself is idealized: the payload is kept abstractly together with the
derivation inputs `(password, salt)` — PBKDF2 is modelled as that
injective pair — and decryption with any other key makes the decipher's
CBC padding check fail.  Secrets are strings, modelled as `List Char`. -/
structure EncFile where
  salt : Nat
  iv : Nat
  keyUsed : String × Nat
  payload : List Char
deriving DecidableEq, Repr

/-- Operation `KeyEncryption.encryptKeys` (part_002:24-53): derive the key from
the password and a fresh salt, join the secrets with `'\n'`, encrypt. -/
def encryptKeys (privateKeys : List (List Char)) (password : String)
    (salt iv : Nat) : EncFile :=
  { salt := salt
    iv := iv
    keyUsed := (password, salt)
    payload := List.intercalate ['\n'] privateKeys }

/-- The truthiness test `key.trim()` of part_002:88: a string is kept
iff trimming leaves it nonempty, i.e. it holds a non-whitespace char. -/
def trimNonblank (k : List Char) : Bool :=
  k.any (fun c => !c.isWhitespace)

/-- The single error every failure inside `decryptKeys` is mapped to
(part_002:91-94). -/
def authError : String := "Неверный пароль"

/-- Operation `KeyEncryption.decryptKeys` (part_002:58-95): re-derive the key from
the entered password and the stored salt; a wrong key makes the
decipher fail, which the surrounding catch maps to the single
`authError`; on success, split on `'\n'` and drop blank lines. -/
def decryptKeys (password : String) (f : EncFile) :
    Except String (List (List Char)) :=
  if (password, f.salt) = f.keyUsed then
    .ok ((f.payload.splitOn '\n').filter trimNonblank)
  else .error authError

/-- A parsed JSON document, as `JSON.parse` hands it to the untyped
cast in `loadData`. -/
inductive Json
  | null
  | bool (b : Bool)
  | num (n : Int)
  | str (s : String)
  | arr (elems : List Json)
  | obj (fields : List (String × Json))

/-- States the backing file can be in when `loadData` runs: absent,
unreadable, readable but not syntactically valid JSON (so `JSON.parse`
throws), or readable and parsing to the JSON document `j` — with no
constraint that `j` has the snapshot shape. -/
inductive FileState
  | missing
  | unreadable
  | badSyntax
  | content (j : Json)

/-- The document `{ wallets: [], lastUpdate: now }` built by the catch
branch of `loadData`. -/
def emptySnapshotJson (nowIso : String) : Json :=
  .obj [("wallets", .arr []), ("lastUpdate", .str nowIso)]

/-- Load `loadData` (database.ts:61-69): `readFileSync` + `JSON.parse` inside
a try/catch; any read or parse exception yields the empty snapshot;
whatever parses is returned as-is, with no shape validation. -/
def loadData (fs : FileState) (nowIso : String) : Json :=
  match fs with
  | .missing => emptySnapshotJson nowIso
  | .unreadable => emptySnapshotJson nowIso
  | .badSyntax => emptySnapshotJson nowIso
  | .content j => j

/-- Save `saveData` (database.ts:74-80): `writeFileSync` inside a try/catch;
an unwritable medium leaves the old file in place and the error is
swallowed (the function still returns normally). -/
def saveData (writable : Bool) (fs : FileState) (j : Json) : FileState :=
  if writable then .content j else fs

/-- Field lookup on a parsed document, as `data.wallets` dereferences
the untyped parse result. -/
def Json.getField : Json → String → Option Json
  | .obj fields, k => fields.lookup k
  | _, _ => none

/-- What every caller of `loadData` needs of the returned document for
its own `data.wallets.findIndex`/`find`/iteration not to throw: a
`wallets` field holding an array. -/
def isValidSnapshot (j : Json) : Bool :=
  match j.getField "wallets" with
  | some (.arr _) => true
  | _ => false

/-! ### Helper lemmas -/

theorem updateFirst_eq_none_iff (p : α → Bool) (f : α → α) (l : List α) :
    updateFirst p f l = none ↔ l.find? p = none := by
  induction l with
  | nil => simp [updateFirst]
  | cons x xs ih =>
    by_cases hx : p x
    · rw [List.find?_cons_of_pos _ hx]
      simp [updateFirst, hx]
    · rw [List.find?_cons_of_neg _ (by simp [hx])]
      rw [← ih]
      simp [updateFirst, hx]

theorem find?_updateFirst_some (p : α → Bool) (f : α → α)
    (hf : ∀ x, p x = true → p (f x) = true) :
    ∀ (l : List α) (x : α), l.find? p = some x →
      ∃ l', updateFirst p f l = some l' ∧ l'.find? p = some (f x) := by
  intro l
  induction l with
  | nil => intro x h; simp at h
  | cons y ys ih =>
    intro x h
    by_cases hy : p y
    · rw [List.find?_cons_of_pos _ hy, Option.some_inj] at h
      refine ⟨f y :: ys, by simp [updateFirst, hy], ?_⟩
      rw [← h]
      exact List.find?_cons_of_pos _ (hf y hy)
    · rw [List.find?_cons_of_neg _ (by simp [hy])] at h
      obtain ⟨l', hl', hfind⟩ := ih x h
      exact ⟨y :: l', by simp [updateFirst, hy, hl'],
             by rw [List.find?_cons_of_neg _ (by simp [hy])]; exact hfind⟩

theorem matchesAddr_mergeSave (addr : String) (w : WalletData) (p : WalletPatch)
    (now : Timestamp) : matchesAddr addr (mergeSave w addr p now) = true := by
  simp [matchesAddr, mergeSave]

theorem Timestamp.le_day {a b : Timestamp} (h : Timestamp.le a b) : a.day ≤ b.day := by
  rcases h with h | ⟨h, _⟩ <;> omega

/-! ### Claim theorems -/

/-- C3: `shouldRefreshSpins` implements the fixed 03:00 UTC boundary:
for a record whose last spin falls on today's UTC calendar date, the
function returns true exactly when now's UTC hour is ≥ 3 and the last
spin's UTC hour is < 3 (in particular 02:59:00 → 03:00:01 same day gives
true, and 03:01:00 → 05:00:00 same day gives false); it returns true
whenever the record or its last-spin timestamp is absent or the last
spin's calendar date differs from today's. -/
theorem claim_C3 :
    (∀ (w : WalletData) (ls now : Timestamp), w.lastSpinDate = some ls →
      ls.day = now.day →
      (shouldRefreshSpinsRecord (some w) now = true ↔ (3 ≤ now.hour ∧ ls.hour < 3)))
    ∧ (∀ now : Timestamp, shouldRefreshSpinsRecord none now = true)
    ∧ (∀ (w : WalletData) (now : Timestamp), w.lastSpinDate = none →
        shouldRefreshSpinsRecord (some w) now = true)
    ∧ (∀ (w : WalletData) (ls now : Timestamp), w.lastSpinDate = some ls →
        ls.day ≠ now.day → shouldRefreshSpinsRecord (some w) now = true)
    ∧ shouldRefreshSpinsRecord
        (some { address := "0xw", connectedAt := ⟨100, 2, 59, 0⟩,
                lastSpinDate := some ⟨100, 2, 59, 0⟩ }) ⟨100, 3, 0, 1⟩ = true
    ∧ shouldRefreshSpinsRecord
        (some { address := "0xw", connectedAt := ⟨100, 3, 1, 0⟩,
                lastSpinDate := some ⟨100, 3, 1, 0⟩ }) ⟨100, 5, 0, 0⟩ = false := by
  refine ⟨?_, ?_, ?_, ?_, by decide, by decide⟩
  · intro w ls now hls hday
    simp [shouldRefreshSpinsRecord, hls, hday]
  · intro now; rfl
  · intro w now hls
    simp [shouldRefreshSpinsRecord, hls]
  · intro w ls now hls hday
    simp [shouldRefreshSpinsRecord, hls, hday]

/-- Witness for C3 at the claim's own boundary inputs: a last spin at
02:59:00 UTC with now 03:00:01 UTC the same day refreshes. -/
theorem claim_C3_witness :
    shouldRefreshSpinsRecord
      (some { address := "0xw", connectedAt := ⟨100, 2, 59, 0⟩,
              lastSpinDate := some ⟨100, 2, 59, 0⟩ }) ⟨100, 3, 0, 1⟩ = true :=
  (claim_C3.1 { address := "0xw", connectedAt := ⟨100, 2, 59, 0⟩,
                lastSpinDate := some ⟨100, 2, 59, 0⟩ }
    ⟨100, 2, 59, 0⟩ ⟨100, 3, 0, 1⟩ rfl rfl).mpr (by decide)

/-- C5: a wallet with no record in the store is always sent to a live
page read first — the planner's decision for an absent record is
`refreshThenDecide`, never a direct skip or spin consumption. -/
theorem claim_C5 : ∀ (d : DbData) (addr : String) (now : Timestamp),
    getWalletData d addr = none →
    processWalletAction (getWalletData d addr) now = .refreshThenDecide := by
  intro d addr now h
  rw [h]
  rfl

/-- Witness for C5: the empty store has no record for the wallet, and
the decision is `refreshThenDecide`. -/
theorem claim_C5_witness :
    processWalletAction (getWalletData ⟨[], ⟨0, 0, 0, 0⟩⟩ "0xa") ⟨7, 12, 0, 0⟩ =
      .refreshThenDecide :=
  claim_C5 ⟨[], ⟨0, 0, 0, 0⟩⟩ "0xa" ⟨7, 12, 0, 0⟩ rfl

theorem spinLoop_le (env : SpinEnv) :
    ∀ (fuel c : Nat), spinLoop env c fuel ≤ c + fuel := by
  intro fuel
  induction fuel with
  | zero => intro c; simp [spinLoop]
  | succ n ih =>
    intro c
    cases hs : env.spinsAvailable c with
    | false => simp [spinLoop, hs]
    | true =>
      cases ho : env.spinOk c with
      | false => simp [spinLoop, hs, ho]
      | true =>
        cases hr : env.reloadOk c with
        | false => simp [spinLoop, hs, ho, hr]
        | true =>
          have hstep : spinLoop env c (n + 1) = spinLoop env (c + 1) n := by
            simp [spinLoop, hs, ho, hr]
          rw [hstep]
          have := ih (c + 1)
          omega

theorem spinLoop_stop (env : SpinEnv) :
    ∀ (fuel c : Nat),
      spinLoop env c fuel = c + fuel ∨
      env.spinsAvailable (spinLoop env c fuel) = false ∨
      env.spinOk (spinLoop env c fuel - 1) = false ∨
      env.reloadOk (spinLoop env c fuel - 1) = false := by
  intro fuel
  induction fuel with
  | zero => intro c; left; simp [spinLoop]
  | succ n ih =>
    intro c
    cases hs : env.spinsAvailable c with
    | false =>
      have hstep : spinLoop env c (n + 1) = c := by simp [spinLoop, hs]
      right; left; rw [hstep]; exact hs
    | true =>
      cases ho : env.spinOk c with
      | false =>
        have hstep : spinLoop env c (n + 1) = c + 1 := by simp [spinLoop, hs, ho]
        right; right; left; rw [hstep]; simpa using ho
      | true =>
        cases hr : env.reloadOk c with
        | false =>
          have hstep : spinLoop env c (n + 1) = c + 1 := by
            simp [spinLoop, hs, ho, hr]
          right; right; right; rw [hstep]; simpa using hr
        | true =>
          have hstep : spinLoop env c (n + 1) = spinLoop env (c + 1) n := by
            simp [spinLoop, hs, ho, hr]
          rw [hstep]
          rcases ih (c + 1) with h | h | h | h
          · left; omega
          · right; left; exact h
          · right; right; left; exact h
          · right; right; right; exact h

/-- C9: the spin-consumption loop is bounded by the hard cap of 10 spin
actions per wallet per pass, for every behaviour of the external spin
source; an always-available source hits exactly the cap; and the loop
only ever ends at the cap, on the store reporting no spins, on a failed
spin action, or on a failed reload. -/
theorem claim_C9 :
    (∀ env : SpinEnv, performAllAvailableSpins env ≤ 10) ∧
    performAllAvailableSpins
      ⟨fun _ => true, fun _ => true, fun _ => true⟩ = 10 ∧
    (∀ env : SpinEnv,
      performAllAvailableSpins env = 10 ∨
      env.spinsAvailable (performAllAvailableSpins env) = false ∨
      env.spinOk (performAllAvailableSpins env - 1) = false ∨
      env.reloadOk (performAllAvailableSpins env - 1) = false) := by
  refine ⟨fun env => ?_, rfl, fun env => ?_⟩
  · simpa using spinLoop_le env 10 0
  · simpa using spinLoop_stop env 10 0

theorem decrementSpinsList_of_find?_none (addr : String) (now : Timestamp)
    (l : List WalletData) (h : l.find? (matchesAddr addr) = none) :
    decrementSpinsList addr now l = none := by
  induction l with
  | nil => rfl
  | cons w ws ih =>
    rw [List.find?_cons] at h
    cases hw : matchesAddr addr w with
    | true => simp [hw] at h
    | false =>
      simp only [hw] at h
      simp [decrementSpinsList, hw, ih h]

theorem decrementSpinsList_of_nonpos (addr : String) (now : Timestamp)
    (l : List WalletData) (w : WalletData)
    (h : l.find? (matchesAddr addr) = some w)
    (hsp : w.spinsAvailable.getD 0 ≤ 0) :
    decrementSpinsList addr now l = none := by
  induction l with
  | nil => simp at h
  | cons y ys ih =>
    cases hy : matchesAddr addr y with
    | true =>
      rw [List.find?_cons_of_pos _ hy, Option.some_inj] at h
      subst h
      simp only [decrementSpinsList, hy, if_pos]
      rw [if_neg (by omega)]
    | false =>
      rw [List.find?_cons_of_neg _ (by simp [hy])] at h
      simp [decrementSpinsList, hy, ih h]

theorem decrementSpinsList_of_pos (addr : String) (now : Timestamp)
    (l : List WalletData) (w : WalletData)
    (h : l.find? (matchesAddr addr) = some w)
    (hsp : 0 < w.spinsAvailable.getD 0) :
    ∃ l', decrementSpinsList addr now l = some l' ∧
      l'.find? (matchesAddr addr) =
        some { w with spinsAvailable := some (w.spinsAvailable.getD 0 - 1),
                      lastActivity := some now } := by
  induction l with
  | nil => simp at h
  | cons y ys ih =>
    cases hy : matchesAddr addr y with
    | true =>
      rw [List.find?_cons_of_pos _ hy, Option.some_inj] at h
      subst h
      refine ⟨{ y with spinsAvailable := some (y.spinsAvailable.getD 0 - 1),
                       lastActivity := some now } :: ys, ?_, ?_⟩
      · simp [decrementSpinsList, hy, hsp]
      · exact List.find?_cons_of_pos _ (by simpa [matchesAddr] using hy)
    | false =>
      rw [List.find?_cons_of_neg _ (by simp [hy])] at h
      obtain ⟨l', hl', hfind⟩ := ih h
      exact ⟨y :: l', by simp [decrementSpinsList, hy, hl'],
             by rw [List.find?_cons_of_neg _ (by simp [hy])]; exact hfind⟩

theorem decrementSpinsList_nonneg (addr : String) (now : Timestamp) :
    ∀ (l l' : List WalletData), decrementSpinsList addr now l = some l' →
      (∀ w ∈ l, 0 ≤ w.spinsAvailable.getD 0) →
      ∀ w' ∈ l', 0 ≤ w'.spinsAvailable.getD 0 := by
  intro l
  induction l with
  | nil => intro l' h; simp [decrementSpinsList] at h
  | cons y ys ih =>
    intro l' h hall
    cases hy : matchesAddr addr y with
    | true =>
      simp only [decrementSpinsList, hy, if_pos] at h
      by_cases hsp : 0 < y.spinsAvailable.getD 0
      · rw [if_pos hsp, Option.some_inj] at h
        subst h
        intro w' hw'
        rcases List.mem_cons.mp hw' with rfl | hmem
        · simp; omega
        · exact hall w' (List.mem_cons_of_mem _ hmem)
      · rw [if_neg hsp] at h
        exact absurd h (by simp)
    | false =>
      simp only [decrementSpinsList, hy, Bool.false_eq_true, if_false] at h
      cases hrec : decrementSpinsList addr now ys with
      | none => rw [hrec] at h; simp at h
      | some l'' =>
        rw [hrec] at h
        simp at h
        subst h
        intro w' hw'
        rcases List.mem_cons.mp hw' with rfl | hmem
        · exact hall w' (List.mem_cons_self _ _)
        · exact ih l'' hrec
            (fun w hw => hall w (List.mem_cons_of_mem _ hw)) w' hmem

/-- C10 (amended): `decrementSpins` preserves non-negativity of the spin
budget. When no record matches the address, or the matching record's
`spinsAvailable` is absent, zero, or negative (i.e. `spinsAvailable || 0`
is not strictly positive), the snapshot is returned entirely unchanged —
no save occurs. When the stored count is strictly positive it decreases
by exactly 1. A snapshot whose counts are all non-negative therefore
stays non-negative under any sequence of calls. -/
theorem claim_C10_amended (d : DbData) (addr : String) (now : Timestamp) :
    (getWalletData d addr = none → decrementSpins d addr now = d) ∧
    (∀ w, getWalletData d addr = some w → w.spinsAvailable.getD 0 ≤ 0 →
      decrementSpins d addr now = d) ∧
    (∀ w n, getWalletData d addr = some w → w.spinsAvailable = some n → 0 < n →
      ∃ w', getWalletData (decrementSpins d addr now) addr = some w' ∧
        w'.spinsAvailable = some (n - 1)) ∧
    ((∀ w ∈ d.wallets, 0 ≤ w.spinsAvailable.getD 0) →
      ∀ w' ∈ (decrementSpins d addr now).wallets, 0 ≤ w'.spinsAvailable.getD 0) := by
  refine ⟨?_, ?_, ?_, ?_⟩
  · intro h
    unfold decrementSpins
    rw [decrementSpinsList_of_find?_none addr now _ h]
  · intro w h hsp
    unfold decrementSpins
    rw [decrementSpinsList_of_nonpos addr now _ w h hsp]
  · intro w n h hn hpos
    have hsp : 0 < w.spinsAvailable.getD 0 := by rw [hn]; simpa using hpos
    obtain ⟨l', hl', hfind⟩ := decrementSpinsList_of_pos addr now _ w h hsp
    refine ⟨{ w with spinsAvailable := some (w.spinsAvailable.getD 0 - 1),
                     lastActivity := some now }, ?_, ?_⟩
    · unfold decrementSpins getWalletData
      rw [hl']
      exact hfind
    · simp [hn]
  · intro hall w' hw'
    unfold decrementSpins at hw'
    cases hl : decrementSpinsList addr now d.wallets with
    | none => rw [hl] at hw'; exact hall w' hw'
    | some l' =>
      rw [hl] at hw'
      exact decrementSpinsList_nonneg addr now _ l' hl hall w' hw'

/-- C10 counterexample: a stored record can hold a negative
`spinsAvailable` (the snapshot file is loaded without validation); it is
neither absent nor zero, yet `decrementSpins` leaves the snapshot
entirely unchanged instead of decreasing the count by 1 as the claim's
"otherwise" branch demands. -/
theorem claim_C10_counterexample :
    (getWalletData
        ⟨[{ address := "0xa", connectedAt := ⟨1, 0, 0, 0⟩,
            spinsAvailable := some (-1) }], ⟨1, 0, 0, 0⟩⟩ "0xa").bind
      (·.spinsAvailable) = some (-1) ∧
    decrementSpins
        ⟨[{ address := "0xa", connectedAt := ⟨1, 0, 0, 0⟩,
            spinsAvailable := some (-1) }], ⟨1, 0, 0, 0⟩⟩ "0xa" ⟨2, 0, 0, 0⟩ =
      ⟨[{ address := "0xa", connectedAt := ⟨1, 0, 0, 0⟩,
          spinsAvailable := some (-1) }], ⟨1, 0, 0, 0⟩⟩ := by
  constructor <;> decide

/-- Witness for C10 (amended) at a concrete snapshot: a record holding 2
spins is decremented to 1, and a record holding 0 spins leaves the
snapshot untouched. -/
theorem claim_C10_amended_witness :
    (∃ w', getWalletData
        (decrementSpins
          ⟨[{ address := "0xB", connectedAt := ⟨1, 0, 0, 0⟩,
              spinsAvailable := some 2 }], ⟨1, 0, 0, 0⟩⟩ "0xb" ⟨2, 3, 0, 0⟩)
        "0xb" = some w' ∧ w'.spinsAvailable = some 1) ∧
    decrementSpins
        ⟨[{ address := "0xC", connectedAt := ⟨1, 0, 0, 0⟩,
            spinsAvailable := some 0 }], ⟨1, 0, 0, 0⟩⟩ "0xc" ⟨2, 3, 0, 0⟩ =
      ⟨[{ address := "0xC", connectedAt := ⟨1, 0, 0, 0⟩,
          spinsAvailable := some 0 }], ⟨1, 0, 0, 0⟩⟩ := by
  constructor
  · have h := (claim_C10_amended
      ⟨[{ address := "0xB", connectedAt := ⟨1, 0, 0, 0⟩,
          spinsAvailable := some 2 }], ⟨1, 0, 0, 0⟩⟩ "0xb" ⟨2, 3, 0, 0⟩).2.2.1
        ({ address := "0xB", connectedAt := ⟨1, 0, 0, 0⟩,
            spinsAvailable := some 2 } : WalletData) 2 (by decide) rfl (by decide)
    simpa using h
  · exact (claim_C10_amended
      ⟨[{ address := "0xC", connectedAt := ⟨1, 0, 0, 0⟩,
          spinsAvailable := some 0 }], ⟨1, 0, 0, 0⟩⟩ "0xc" ⟨2, 3, 0, 0⟩).2.1
      ({ address := "0xC", connectedAt := ⟨1, 0, 0, 0⟩,
          spinsAvailable := some 0 } : WalletData)
      (by decide) (by decide)

/-- C6 (amended): `isNewDay` is monotone in time for every fixed record
whose date signals do not lie in the future: for all t1 ≤ t2, if none of
the record's `lastTransferDate`, `lastActivity` and `connectedAt` dates
exceed t1's date and `isNewDay` holds at t1 with the record unmodified,
then `isNewDay` also holds at t2. (Monotonicity fails without the
no-future-dates hypothesis — see the counterexample.) -/
theorem claim_C6_amended (w : WalletData) (t1 t2 : Timestamp)
    (hle : Timestamp.le t1 t2)
    (hdt : ∀ dt, w.lastTransferDate = some dt → dt ≤ t1.day)
    (hla : ∀ la, w.lastActivity = some la → la.day ≤ t1.day)
    (hc : w.connectedAt.day ≤ t1.day)
    (h1 : isNewDayRecord (some w) t1 = true) :
    isNewDayRecord (some w) t2 = true := by
  have hday : t1.day ≤ t2.day := Timestamp.le_day hle
  cases hdtv : w.lastTransferDate with
  | some dt =>
    have hdt' := hdt dt hdtv
    cases hlav : w.lastActivity with
    | some la =>
      have hla' := hla la hlav
      simp [isNewDayRecord, hdtv, hlav, bne_iff_ne] at h1 ⊢
      omega
    | none =>
      simp [isNewDayRecord, hdtv, hlav, bne_iff_ne] at h1 ⊢
      omega
  | none =>
    cases hlav : w.lastActivity with
    | some la =>
      have hla' := hla la hlav
      simp [isNewDayRecord, hdtv, hlav, bne_iff_ne] at h1 ⊢
      omega
    | none =>
      simp [isNewDayRecord, hdtv, hlav, bne_iff_ne] at h1 ⊢
      omega

/-- C6 counterexample: the claim quantifies over every record, but for a
record whose `lastActivity` lies on a later calendar day than `t1`
(day 5, with `t1` on day 4 and `t2` on day 5), `isNewDay` is true at
`t1` and false at the later `t2` even though the record was not
modified — monotonicity as stated fails. -/
theorem claim_C6_counterexample :
    Timestamp.le ⟨4, 0, 0, 0⟩ ⟨5, 0, 0, 0⟩ ∧
    isNewDayRecord
      (some { address := "0xa", connectedAt := ⟨5, 0, 0, 0⟩,
              lastActivity := some ⟨5, 0, 0, 0⟩ }) ⟨4, 0, 0, 0⟩ = true ∧
    isNewDayRecord
      (some { address := "0xa", connectedAt := ⟨5, 0, 0, 0⟩,
              lastActivity := some ⟨5, 0, 0, 0⟩ }) ⟨5, 0, 0, 0⟩ = false := by
  refine ⟨?_, by decide, by decide⟩
  left; decide

/-- Witness for C6 (amended): a record last active on day 3 is a new day
both on day 4 and on the later day 5. -/
theorem claim_C6_amended_witness :
    isNewDayRecord
      (some { address := "0xa", connectedAt := ⟨3, 0, 0, 0⟩,
              lastActivity := some ⟨3, 11, 0, 0⟩ }) ⟨5, 6, 0, 0⟩ = true :=
  claim_C6_amended
    { address := "0xa", connectedAt := ⟨3, 0, 0, 0⟩,
      lastActivity := some ⟨3, 11, 0, 0⟩ }
    ⟨4, 2, 0, 0⟩ ⟨5, 6, 0, 0⟩ (by left; decide)
    (by intro dt h; simp at h) (by intro la h; cases h; decide)
    (by decide) (by decide)

/-- C4: for every present record with the daily transfer recorded for
today (`lastTransferDate` = today's UTC date), exactly 0 spins, and no
spin refresh due, the planner's first rule fires: the pass returns the
skip outcome (`dailyTransferCompleted` true, `hasAvailableSpins` false,
`spinsPerformed` false) with no browser session created, for every
behaviour of the live environment, and the planned action is `skip`. -/
theorem claim_C4 (w : WalletData) (now : Timestamp)
    (hasWETH dailyResult : Bool) (env : LiveEnv)
    (hdt : w.lastTransferDate = some now.day)
    (hsp : w.spinsAvailable = some 0)
    (hrf : shouldRefreshSpinsRecord (some w) now = false) :
    processWalletPass (some w) now hasWETH dailyResult env =
      ({ hasWETHBalance := hasWETH, dailyTransferCompleted := true,
         hasAvailableSpins := false, spinsPerformed := false }, false) ∧
    processWalletAction (some w) now = .skip := by
  constructor
  · simp [processWalletPass, hdt, hsp, hrf, checkSpinsAvailableRecord,
      hasFullData]
  · simp [processWalletAction, hdt, hsp, hrf]

/-- Witness for C4: a record with today's transfer recorded, 0 spins
and a post-03:00 last spin today is skipped without a browser session,
whatever the live environment would have answered. -/
theorem claim_C4_witness :
    processWalletPass
        (some { address := "0xa", connectedAt := ⟨10, 1, 0, 0⟩,
                spinsAvailable := some 0, prizesWon := some 3,
                gamesPlayed := some 7, lastTransferDate := some 10,
                lastSpinDate := some ⟨10, 5, 0, 0⟩ }) ⟨10, 12, 0, 0⟩
        true false ⟨true, true⟩ =
      ({ hasWETHBalance := true, dailyTransferCompleted := true,
         hasAvailableSpins := false, spinsPerformed := false }, false) ∧
    processWalletAction
        (some { address := "0xa", connectedAt := ⟨10, 1, 0, 0⟩,
                spinsAvailable := some 0, prizesWon := some 3,
                gamesPlayed := some 7, lastTransferDate := some 10,
                lastSpinDate := some ⟨10, 5, 0, 0⟩ }) ⟨10, 12, 0, 0⟩ = .skip :=
  claim_C4
    { address := "0xa", connectedAt := ⟨10, 1, 0, 0⟩,
      spinsAvailable := some 0, prizesWon := some 3,
      gamesPlayed := some 7, lastTransferDate := some 10,
      lastSpinDate := some ⟨10, 5, 0, 0⟩ }
    ⟨10, 12, 0, 0⟩ true false ⟨true, true⟩ rfl rfl (by decide)

theorem getWalletData_updateDailyTransferStatus (d : DbData) (addr : String)
    (date : Nat) (amount : ℚ) (now : Timestamp) :
    ∃ w', getWalletData (updateDailyTransferStatus d addr date amount now) addr
        = some w' ∧
      w'.todayTransfer = some true ∧ w'.lastTransferDate = some date ∧
      w'.transferAmount = some amount := by
  cases hfind : d.wallets.find? (matchesAddr addr) with
  | none =>
    have hupd : updateFirst (matchesAddr addr)
        (fun w => { w with todayTransfer := some true,
                           lastTransferDate := some date,
                           transferAmount := some amount,
                           lastActivity := some now }) d.wallets = none :=
      (updateFirst_eq_none_iff _ _ _).mpr hfind
    refine ⟨{ address := addr, todayTransfer := some true,
              lastTransferDate := some date, transferAmount := some amount,
              lastActivity := some now, connectedAt := now }, ?_, rfl, rfl, rfl⟩
    unfold updateDailyTransferStatus getWalletData
    rw [hupd]
    simp [List.find?_append, hfind, matchesAddr]
  | some w =>
    obtain ⟨l', hl', hfind'⟩ := find?_updateFirst_some (matchesAddr addr)
      (fun w => { w with todayTransfer := some true,
                         lastTransferDate := some date,
                         transferAmount := some amount,
                         lastActivity := some now })
      (fun x hx => by simpa [matchesAddr] using hx)
      d.wallets w hfind
    refine ⟨{ w with todayTransfer := some true,
                     lastTransferDate := some date,
                     transferAmount := some amount,
                     lastActivity := some now }, ?_, rfl, rfl, rfl⟩
    unfold updateDailyTransferStatus getWalletData
    rw [hl']
    exact hfind'

/-- C1: at most one daily transfer per wallet per UTC day. If the stored
record's `lastTransferDate` already equals today's date,
`checkAndPerformDailyTransfer` returns true, invokes no ledger transfer
and leaves the store untouched. When the transfer does not report
confirmed success the store is untouched (a crash before confirmation
leaves the record eligible on the next run). A transfer is only ever
attempted when no transfer is recorded for today, and any store change
is exactly the completed-transfer bookkeeping (`todayTransfer` true,
`lastTransferDate` today), written only with confirmed success. -/
theorem claim_C1 (d : DbData) (addr : String) (today : Nat) (now : Timestamp)
    (env : TransferEnv) :
    ((getWalletData d addr).bind (·.lastTransferDate) = some today →
      checkAndPerformDailyTransfer d addr today now env =
        { result := true, db := d, attempted := false }) ∧
    (env.transferSucceeds = false →
      (checkAndPerformDailyTransfer d addr today now env).db = d) ∧
    ((checkAndPerformDailyTransfer d addr today now env).attempted = true →
      (getWalletData d addr).bind (·.lastTransferDate) ≠ some today) ∧
    ((checkAndPerformDailyTransfer d addr today now env).db ≠ d →
      env.transferSucceeds = true ∧
      (checkAndPerformDailyTransfer d addr today now env).result = true ∧
      ∃ w', getWalletData (checkAndPerformDailyTransfer d addr today now env).db
          addr = some w' ∧
        w'.todayTransfer = some true ∧ w'.lastTransferDate = some today) := by
  by_cases hrec : (getWalletData d addr).bind (·.lastTransferDate) = some today
  · have hbeq : ((getWalletData d addr).bind (·.lastTransferDate)
        == some today) = true := by simp [hrec]
    refine ⟨fun _ => ?_, fun _ => ?_, fun hatt => ?_, fun hne => ?_⟩
    · simp [checkAndPerformDailyTransfer, hbeq]
    · simp [checkAndPerformDailyTransfer, hbeq]
    · simp [checkAndPerformDailyTransfer, hbeq] at hatt
    · simp [checkAndPerformDailyTransfer, hbeq] at hne
  · have hbeq : ((getWalletData d addr).bind (·.lastTransferDate)
        == some today) = false := by simp [hrec]
    refine ⟨fun h => absurd h hrec, ?_, fun _ => hrec, ?_⟩
    · intro hsucc
      cases hb : env.wethBalance with
      | none => simp [checkAndPerformDailyTransfer, hbeq, hb]
      | some b =>
        by_cases hpos : b ≤ 0
        · simp [checkAndPerformDailyTransfer, hbeq, hb, hpos]
        · simp [checkAndPerformDailyTransfer, hbeq, hb, hpos, hsucc]
    · intro hne
      cases hb : env.wethBalance with
      | none => simp [checkAndPerformDailyTransfer, hbeq, hb] at hne
      | some b =>
        by_cases hpos : b ≤ 0
        · simp [checkAndPerformDailyTransfer, hbeq, hb, hpos] at hne
        · cases hsucc : env.transferSucceeds with
          | false =>
            simp [checkAndPerformDailyTransfer, hbeq, hb, hpos, hsucc] at hne
          | true =>
            refine ⟨rfl, ?_, ?_⟩
            · simp [checkAndPerformDailyTransfer, hbeq, hb, hpos, hsucc]
            · obtain ⟨w', hw1, hw2, hw3, _⟩ :=
                getWalletData_updateDailyTransferStatus d addr today
                  (b * env.transferPercent) now
              refine ⟨w', ?_, hw2, hw3⟩
              have hdb : (checkAndPerformDailyTransfer d addr today now env).db =
                  updateDailyTransferStatus d addr today
                    (b * env.transferPercent) now := by
                simp [checkAndPerformDailyTransfer, hbeq, hb, hpos, hsucc]
              rw [hdb]
              exact hw1

/-- Witness for C1: a record already carrying today's transfer date
short-circuits to success, with no transfer attempted and the snapshot
unchanged — checked across case-differing address spellings. -/
theorem claim_C1_witness :
    checkAndPerformDailyTransfer
        ⟨[{ address := "0xAb", connectedAt := ⟨20, 1, 0, 0⟩,
            lastTransferDate := some 20 }], ⟨20, 1, 0, 0⟩⟩
        "0xaB" 20 ⟨20, 2, 0, 0⟩ ⟨some 1, 1/2, false⟩ =
      { result := true,
        db := ⟨[{ address := "0xAb", connectedAt := ⟨20, 1, 0, 0⟩,
                  lastTransferDate := some 20 }], ⟨20, 1, 0, 0⟩⟩,
        attempted := false } :=
  (claim_C1
    ⟨[{ address := "0xAb", connectedAt := ⟨20, 1, 0, 0⟩,
        lastTransferDate := some 20 }], ⟨20, 1, 0, 0⟩⟩
    "0xaB" 20 ⟨20, 2, 0, 0⟩ ⟨some 1, 1/2, false⟩).1 (by decide)

/-- C2 (amended): the store's upsert locates the record by
case-insensitive address match and merges with JS spread semantics:
a patch key that is absent never overwrites the stored field (the old
value is retained); a patch key present with a value overwrites it; and
— the amendment — a patch key present with the explicit value
`undefined` also overwrites, clearing the stored field.  `saveWalletData`
re-stamps `connectedAt` and `forceUpdateWalletData` re-stamps
`lastActivity`; both stamp the snapshot's `lastUpdate` before saving. -/
theorem claim_C2_amended (d : DbData) (addr : String) (p : WalletPatch)
    (now : Timestamp) (w : WalletData)
    (h : getWalletData d addr = some w) :
    (∃ w', getWalletData (saveWalletData d addr p now) addr = some w' ∧
      w'.address = addr ∧
      w'.connectedAt = now ∧
      w'.balance = spreadField w.balance p.balance ∧
      w'.wethBalance = spreadField w.wethBalance p.wethBalance ∧
      w'.transactionCount = spreadField w.transactionCount p.transactionCount ∧
      w'.lastActivity = spreadField w.lastActivity p.lastActivity ∧
      w'.spinsAvailable = spreadField w.spinsAvailable p.spinsAvailable ∧
      w'.prizesWon = spreadField w.prizesWon p.prizesWon ∧
      w'.gamesPlayed = spreadField w.gamesPlayed p.gamesPlayed ∧
      w'.dayStreak = spreadField w.dayStreak p.dayStreak ∧
      w'.nextSpinTime = spreadField w.nextSpinTime p.nextSpinTime ∧
      w'.todayTransfer = spreadField w.todayTransfer p.todayTransfer ∧
      w'.lastTransferDate = spreadField w.lastTransferDate p.lastTransferDate ∧
      w'.transferAmount = spreadField w.transferAmount p.transferAmount ∧
      w'.lastSpinDate = spreadField w.lastSpinDate p.lastSpinDate ∧
      (p.spinsAvailable = none → w'.spinsAvailable = w.spinsAvailable) ∧
      (∀ v, p.spinsAvailable = some (some v) → w'.spinsAvailable = some v) ∧
      (p.spinsAvailable = some none → w'.spinsAvailable = none)) ∧
    (saveWalletData d addr p now).lastUpdate = now ∧
    (∃ w'', getWalletData (forceUpdateWalletData d addr p now) addr = some w'' ∧
      w''.address = w.address ∧
      w''.connectedAt = w.connectedAt ∧
      w''.lastActivity = some now ∧
      w''.spinsAvailable = spreadField w.spinsAvailable p.spinsAvailable ∧
      w''.prizesWon = spreadField w.prizesWon p.prizesWon ∧
      w''.gamesPlayed = spreadField w.gamesPlayed p.gamesPlayed ∧
      w''.lastTransferDate = spreadField w.lastTransferDate p.lastTransferDate) ∧
    (forceUpdateWalletData d addr p now).lastUpdate = now := by
  have hsave := find?_updateFirst_some (matchesAddr addr)
    (fun x => mergeSave x addr p now)
    (fun x _ => matchesAddr_mergeSave addr x p now) d.wallets w h
  obtain ⟨ls, hls, hfs⟩ := hsave
  have hforce := find?_updateFirst_some (matchesAddr addr)
    (fun x => mergeForce x p now)
    (fun x hx => by simpa [matchesAddr, mergeForce] using hx) d.wallets w h
  obtain ⟨lf, hlf, hff⟩ := hforce
  refine ⟨⟨mergeSave w addr p now, ?_, rfl, rfl, rfl, rfl, rfl, rfl, rfl, rfl,
      rfl, rfl, rfl, rfl, rfl, rfl, rfl, ?_, ?_, ?_⟩, ?_, ?_, ?_⟩
  · unfold saveWalletData getWalletData
    rw [hls]
    exact hfs
  · intro hp; simp [mergeSave, spreadField, hp]
  · intro v hp; simp [mergeSave, spreadField, hp]
  · intro hp; simp [mergeSave, spreadField, hp]
  · unfold saveWalletData
    rw [hls]
  · refine ⟨mergeForce w p now, ?_, rfl, rfl, rfl, rfl, rfl, rfl, rfl⟩
    unfold forceUpdateWalletData getWalletData
    rw [hlf]
    exact hff
  · unfold forceUpdateWalletData
    rw [hlf]

/-- C2 counterexample: the claim says a field that is `undefined` in the
update never overwrites an existing value, but JS spread semantics (and
the code's `{...existing, ...update}`) copy a key that is present with
the explicit value `undefined`: updating a record holding 5 spins with a
patch whose `spinsAvailable` key is present-but-undefined erases the
stored value instead of retaining it. -/
theorem claim_C2_counterexample :
    (getWalletData
        ⟨[{ address := "0xa", connectedAt := ⟨1, 0, 0, 0⟩,
            spinsAvailable := some 5 }], ⟨1, 0, 0, 0⟩⟩ "0xa").bind
      (·.spinsAvailable) = some 5 ∧
    (getWalletData
        (saveWalletData
          ⟨[{ address := "0xa", connectedAt := ⟨1, 0, 0, 0⟩,
              spinsAvailable := some 5 }], ⟨1, 0, 0, 0⟩⟩
          "0xa" { spinsAvailable := some none } ⟨2, 0, 0, 0⟩) "0xa").bind
      (·.spinsAvailable) = none := by
  constructor <;> decide

/-- Witness for C2 (amended) at a concrete store: updating the record
for `0xa` through the case-differing spelling `0xA` with a patch that
only carries `prizesWon = 9` keeps the stored 5 spins and overwrites the
prize count. -/
theorem claim_C2_amended_witness :
    ∃ w', getWalletData
        (saveWalletData
          ⟨[{ address := "0xa", connectedAt := ⟨1, 0, 0, 0⟩,
              spinsAvailable := some 5 }], ⟨1, 0, 0, 0⟩⟩
          "0xA" { prizesWon := some (some 9) } ⟨3, 4, 0, 0⟩) "0xA" = some w' ∧
      w'.spinsAvailable = some 5 ∧ w'.prizesWon = some 9 := by
  have h := claim_C2_amended
    ⟨[{ address := "0xa", connectedAt := ⟨1, 0, 0, 0⟩,
        spinsAvailable := some 5 }], ⟨1, 0, 0, 0⟩⟩
    "0xA" { prizesWon := some (some 9) } ⟨3, 4, 0, 0⟩
    { address := "0xa", connectedAt := ⟨1, 0, 0, 0⟩, spinsAvailable := some 5 }
    (by decide)
  obtain ⟨⟨w', hw, _, _, _, _, _, _, hspin, hpr, _⟩, _⟩ := h
  exact ⟨w', hw, by simpa [spreadField] using hspin,
         by simpa [spreadField] using hpr⟩

/-- C7 (amended): a missing or unreadable backing file, or one whose
content fails JSON parsing, makes `loadData` return the empty-but-valid
snapshot `{wallets: [], lastUpdate}` instead of throwing; content that
parses as JSON, however, is returned as-is with no shape validation
(see the counterexample). An unwritable medium makes `saveData` drop the
write, leaving the old file, without throwing. -/
theorem claim_C7_amended :
    (∀ nowIso : String,
      loadData .missing nowIso = emptySnapshotJson nowIso ∧
      loadData .unreadable nowIso = emptySnapshotJson nowIso ∧
      loadData .badSyntax nowIso = emptySnapshotJson nowIso ∧
      isValidSnapshot (emptySnapshotJson nowIso) = true) ∧
    (∀ (j : Json) (nowIso : String), loadData (.content j) nowIso = j) ∧
    (∀ (fs : FileState) (j : Json), saveData false fs j = fs) :=
  ⟨fun _ => ⟨rfl, rfl, rfl, rfl⟩, fun _ _ => rfl, fun _ _ => rfl⟩

/-- C7 counterexample: a backing file containing the corrupt but
syntactically valid JSON document `null` is returned by `loadData`
as-is — not the empty-but-valid snapshot the claim promises for every
malformed/corrupt content (the first caller dereferencing `.wallets`
then throws). -/
theorem claim_C7_counterexample :
    loadData (.content .null) "2025-01-01T00:00:00.000Z" = Json.null ∧
    isValidSnapshot (loadData (.content .null) "2025-01-01T00:00:00.000Z")
      = false :=
  ⟨rfl, rfl⟩

/-- C8 (amended): for every list of secrets each of which is free of
newlines and nonblank (keeps a non-whitespace character), encrypting
then decrypting with the same password yields exactly the original
ordered list; a blank or newline-holding secret breaks the round trip
(see the counterexample). Decrypting with any wrong password fails with
the single authentication error (the decipher's failure on a
wrongly-derived key, which the code maps to that one error). -/
theorem claim_C8_amended (ks : List (List Char)) (pw pw' : String)
    (salt iv : Nat)
    (hks : ∀ k ∈ ks, ('\n') ∉ k ∧ trimNonblank k = true) :
    decryptKeys pw (encryptKeys ks pw salt iv) = .ok ks ∧
    (pw' ≠ pw → decryptKeys pw' (encryptKeys ks pw salt iv) = .error authError) := by
  constructor
  · unfold decryptKeys encryptKeys
    rw [if_pos rfl]
    congr 1
    rcases eq_or_ne ks [] with rfl | hne
    · rw [show List.intercalate ['\n'] ([] : List (List Char)) = [] from rfl,
        List.splitOn_nil]
      simp [trimNonblank]
    · rw [List.splitOn_intercalate ks '\n' (fun l hl => (hks l hl).1) hne]
      exact List.filter_eq_self.mpr (fun a ha => (hks a ha).2)
  · intro hne
    unfold decryptKeys encryptKeys
    rw [if_neg (by simp [Prod.ext_iff]; exact fun h => absurd h hne)]

/-- C8 counterexample: the claim's round trip fails on the singleton
list holding the empty secret — `decryptKeys` filters out blank lines,
so the empty string silently disappears from the decrypted list. -/
theorem claim_C8_counterexample :
    decryptKeys "pw" (encryptKeys [[]] "pw" 0 0) = .ok [] ∧
    ([] : List (List Char)) ≠ [[]] := by
  constructor
  · rfl
  · decide

/-- Witness for C8 (amended): two newline-free nonblank secrets
round-trip exactly, and a wrong password yields the authentication
error. -/
theorem claim_C8_amended_witness :
    decryptKeys "hunter2" (encryptKeys [['a'], ['b', 'c']] "hunter2" 5 7) =
      .ok [['a'], ['b', 'c']] ∧
    decryptKeys "wrong" (encryptKeys [['a'], ['b', 'c']] "hunter2" 5 7) =
      .error authError := by
  have h := claim_C8_amended [['a'], ['b', 'c']] "hunter2" "wrong" 5 7 (by decide)
  exact ⟨h.1, h.2 (by decide)⟩
